import Mathlib

/-! Formal model of the multi_query dispatch-and-persistence engine.

Shallow embedding of the repository sources `src/db.py` and `src/main.py`.
Python strings are modelled as `List Char` where the code inspects their
characters, and as `String` where text is merely stored and displayed.
Backend I/O (psycopg, sqlite3, pymongo) is modelled by explicit "world"
records holding the outcome of the n-th primitive call, consumed in call
order; `time.sleep` has no observable effect in the model and is dropped.
Python `str.casefold` is modelled as per-character ASCII lowering
(`Char.toLower`); the inputs of interest are ASCII.
-/

set_option maxHeartbeats 1000000

/-- Query-language class of a stand (main.py `Syntax` IntEnum: SQL = 0, MONGO = 1). -/
inductive SynKind where
  | sql
  | mongo
deriving DecidableEq, Repr

/-- Integer tag stored in the `user_query.syntax` column (the IntEnum value). -/
def SynKind.tag : SynKind → Int
  | .sql => 0
  | .mongo => 1

/-- JSON-representable scalar values appearing in result records. -/
inductive JVal where
  | s (v : String)
  | n (v : Int)
  | b (v : Bool)
  | null
deriving DecidableEq, Repr

/-- One result record: an ordered mapping from field name to value
(Python dicts preserve insertion order). -/
abbrev Rec := List (String × JVal)

/-- The single synthetic record written on task failure (main.py lines 435, 442). -/
def errRecord (msg : String) : Rec := [( "error", JVal.s msg)]

/-! ## PostgresDB (db.py lines 25-77)

State: `conn` models `self.connection is not None`, `reconnects` the retry
counter.  `cIdx`/`eIdx` count consumed `psycopg.connect` attempts and cursor
executions; the world maps each index to that call's backend outcome, so a
bumped index is an observable "one more underlying call". -/

/-- Outcome of one cursor `execute`+`fetchmany` round-trip. -/
inductive ExecRes where
  | rows (rs : List Rec)
  | opErr (msg : String)
  | progErr (msg : String)
deriving DecidableEq, Repr

/-- Backend behaviour: outcome of the n-th `psycopg.connect` call
(`none` = success, `some msg` = `psycopg.OperationalError msg`) and of the
n-th cursor execution. -/
structure PgWorld where
  connOut : Nat → Option String
  execOut : Nat → ExecRes

structure PgSt where
  conn : Bool
  reconnects : Nat
  cIdx : Nat
  eIdx : Nat
deriving DecidableEq, Repr

/-- Errors raised as `DBError`; the constructor records which format string
built the message: `connError` = "Ошибка соединения с БД: {e}",
`capError` = "Превышено количетсво попыток соединения с БД",
`queryError` = "Ошибка при запросе к БД: {e}". -/
inductive PgErr where
  | connError (msg : String)
  | capError
  | queryError (msg : String)
deriving DecidableEq, Repr

/-- `PostgresDB.connect` (db.py 37-45): no-op when a connection exists;
otherwise one `psycopg.connect` attempt, raising `DBError` on
`OperationalError` and resetting the retry counter on success. -/
def pgConnect (w : PgWorld) (s : PgSt) : Except PgErr Unit × PgSt :=
  if s.conn then (.ok (), s)
  else
    match w.connOut s.cIdx with
    | none => (.ok (), { s with conn := true, reconnects := 0, cIdx := s.cIdx + 1 })
    | some m => (.error (.connError m), { s with cIdx := s.cIdx + 1 })

/-- `PostgresDB.reconnect` (db.py 47-53): raise once the counter exceeds 3,
else sleep, call `connect`, and increment the counter.  Note that the
increment sits after `self.connect()`: a failed connect raises out of
`reconnect` before the counter is touched. -/
def pgReconnect (w : PgWorld) (s : PgSt) : Except PgErr Unit × PgSt :=
  if s.reconnects > 3 then (.error .capError, s)
  else
    match pgConnect w s with
    | (.ok _, s1) => (.ok (), { s1 with reconnects := s1.reconnects + 1 })
    | (.error e, s1) => (.error e, s1)

def closedMsg : String := "the connection is closed"

/-- `PostgresDB.fetchmany` (db.py 55-72).  `fuel` bounds the recursion depth
of the Python self-calls; `none` means the model ran out of fuel, never a
behaviour of the code. -/
def pgFetchmany (w : PgWorld) : Nat → PgSt → Option (Except PgErr (List Rec) × PgSt)
  | 0, _ => none
  | fuel + 1, s =>
    if !s.conn then
      match pgReconnect w s with
      | (.ok _, s1) => pgFetchmany w fuel s1
      | (.error e, s1) => some (.error e, s1)
    else
      let s1 : PgSt := { s with eIdx := s.eIdx + 1 }
      match w.execOut s.eIdx with
      | .rows rs => some (.ok rs, s1)
      | .opErr m =>
        if m = closedMsg then pgFetchmany w fuel { s1 with conn := false }
        else some (.error (.queryError m), s1)
      | .progErr m => some (.error (.queryError m), s1)

/-- `PostgresDB.close` (db.py 74-77). -/
def pgClose (s : PgSt) : PgSt :=
  if s.conn then { s with conn := false } else s

/-! ## MongoDB (db.py 80-120)

BSON values returned by a `find`: `oid` is a `bson.ObjectId` (payload = its
`str(...)` rendering), `dt` a `datetime` (payload = its `isoformat()`
rendering); `arr` a BSON array, `doc` a sub-document. -/

inductive BVal where
  | oid (v : String)
  | dt (v : String)
  | s (v : String)
  | n (v : Int)
  | arr (xs : List BVal)
  | doc (kvs : List (String × BVal))

mutual

/-- `MongoDB.to_serializable` (db.py 112-120): recurse through dict values;
convert `ObjectId` via `str`, `datetime` via `isoformat`; every other value
(lists included) is returned unchanged. -/
def to_serializable : BVal → BVal
  | .doc kvs => .doc (to_serializable_kvs kvs)
  | .oid v => .s v
  | .dt v => .s v
  | .s v => .s v
  | .n v => .n v
  | .arr xs => .arr xs

/-- The dict comprehension `{k: self.to_serializable(v) for k, v in result.items()}`. -/
def to_serializable_kvs : List (String × BVal) → List (String × BVal)
  | [] => []
  | (k, v) :: rest => (k, to_serializable v) :: to_serializable_kvs rest

end

/-- Adapter state: `client` models `self.client is not None`; `opened`
counts `pymongo.MongoClient` constructions (a bump = one more underlying
client). -/
structure MgSt where
  client : Bool
  opened : Nat
deriving DecidableEq, Repr

/-- `MongoDB.connect` (db.py 93-96): no-op when a client exists, else
construct a new `MongoClient` (construction itself never raises). -/
def mgConnect (s : MgSt) : MgSt :=
  if s.client then s else { client := true, opened := s.opened + 1 }

/-- `MongoDB.close` (db.py 107-110). -/
def mgClose (s : MgSt) : MgSt :=
  if s.client then { s with client := false } else s

/-- `MongoDB.fetchmany` (db.py 98-105): asserts a client is present (`none`
models the failed assert), then maps `to_serializable` over the documents the
backend's `find(...).limit(size)` returned (`found`); a
`ServerSelectionTimeoutError` becomes a `DBError`.  The JSON parse of the
filter and the limit are applied backend-side and folded into `found`. -/
def mgFetchmany (s : MgSt) (found : Except String (List BVal)) :
    Option (Except String (List BVal)) :=
  if s.client then
    match found with
    | .ok docs => some (.ok (docs.map to_serializable))
    | .error e => some (.error e)
  else none

/-! ## SQLiteDB (db.py 123-166) -/

/-- Backend behaviour for the embedded adapter: outcome of the n-th
`sqlite3.connect` attempt. -/
structure SlWorld where
  connOut : Nat → Option String

structure SlSt where
  conn : Bool
  cIdx : Nat
deriving DecidableEq, Repr

/-- `SQLiteDB.connect` (db.py 134-140). -/
def slConnect (w : SlWorld) (s : SlSt) : Except String Unit × SlSt :=
  if s.conn then (.ok (), s)
  else
    match w.connOut s.cIdx with
    | none => (.ok (), { conn := true, cIdx := s.cIdx + 1 })
    | some m => (.error m, { s with cIdx := s.cIdx + 1 })

/-- `SQLiteDB.close` (db.py 163-166). -/
def slClose (s : SlSt) : SlSt :=
  if s.conn then { s with conn := false } else s

/-! ## Storage (db.py 169-313)

The two tables are modelled as lists of rows; `nextId` models the
auto-assigned `INTEGER PRIMARY KEY` of `user_query`.  The JSON round-trip of
`result_json` (`json.dumps` on write, `json.loads` on export) is modelled by
storing the record list itself. -/

/-- One `user_query` row. -/
structure UserQuery where
  qid : Nat
  standsNumber : Int
  synTag : Int
  createdAt : String
  content : List Char
deriving DecidableEq, Repr

/-- One `query_result` row. -/
structure SavedResult where
  queryId : Nat
  isError : Nat
  standName : String
  payload : List Rec
deriving DecidableEq, Repr

structure StoreState where
  queries : List UserQuery
  results : List SavedResult
  nextId : Nat
deriving DecidableEq, Repr

/-- `Storage.save_query` (db.py 204-217): insert one row, returning the
fresh id.  `now` is the `CURRENT_TIMESTAMP` the storage would assign. -/
def save_query (st : StoreState) (syn : SynKind) (content : List Char)
    (standsNumber : Nat) (now : String) : Nat × StoreState :=
  (st.nextId,
   { st with
     queries := st.queries ++ [⟨st.nextId, (standsNumber : Int), syn.tag, now, content⟩],
     nextId := st.nextId + 1 })

/-- `Storage.save_result` (db.py 219-233): append one `query_result` row. -/
def save_result (st : StoreState) (queryId : Nat) (isError : Nat)
    (standName : String) (result : List Rec) : StoreState :=
  { st with results := st.results ++ [⟨queryId, isError, standName, result⟩] }

/-- `Storage.mark_incomplete` (db.py 235-245): set `stands_number` to the
sentinel -1 for the given query id. -/
def mark_incomplete (st : StoreState) (queryId : Nat) : StoreState :=
  { st with
    queries := st.queries.map fun q =>
      if q.qid = queryId then { q with standsNumber := -1 } else q }

/-- `COUNT(r.id)` of the `LEFT JOIN` in `latest_queries`: the number of
result rows owned by the query. -/
def countFor (results : List SavedResult) (queryId : Nat) : Nat :=
  (results.filter fun r => r.queryId = queryId).length

/-- The content-preview CASE of `latest_queries` (db.py 258-262): texts of
fewer than 50 characters have embedded newlines collapsed to spaces; longer
texts are truncated to 50 characters, collapsed, and get an ellipsis. -/
def contentPreview (content : List Char) : List Char :=
  if content.length < 50 then
    content.map fun c => if c == '\n' then ' ' else c
  else
    ((content.take 50).map fun c => if c == '\n' then ' ' else c) ++ ( "...".toList)

def satLabel : String := "Заполнена очередь"

def doneLabel : String := "Готово"

/-- The progress CASE of `latest_queries` (db.py 263-269), with `c` the
joined result count. -/
def progressLabel (standsNumber : Int) (c : Nat) : String :=
  if standsNumber = -1 then satLabel
  else if standsNumber - (c : Int) > 0 then
    "Выполняется (" ++ toString c ++ "/" ++ toString standsNumber ++ ")"
  else doneLabel

/-- One row of the listing produced by `latest_queries`. -/
structure QRow where
  qid : Nat
  shownAt : String
  preview : List Char
  progress : String
deriving DecidableEq, Repr

/-- Sort order of `ORDER BY q.id DESC`. -/
def byIdDesc (a b : UserQuery) : Prop := b.qid ≤ a.qid

instance : DecidableRel byIdDesc := fun a b => inferInstanceAs (Decidable (b.qid ≤ a.qid))

instance : IsTotal UserQuery byIdDesc := ⟨fun a b => le_total b.qid a.qid⟩

instance : IsTrans UserQuery byIdDesc := ⟨fun _ _ _ h1 h2 => le_trans h2 h1⟩

/-- `Storage.latest_queries` (db.py 247-282): group results to their query,
order by id descending, keep 25 rows, and render timestamp, preview and
progress label.  `DATETIME(created_at, 'localtime')` is modelled as the
stored timestamp itself (a display-only conversion).  Grouping by the
primary key `q.id` is faithful when ids are distinct, which the schema
guarantees. -/
def latest_queries (qs : List UserQuery) (rs : List SavedResult) : List QRow :=
  ((qs.insertionSort byIdDesc).take 25).map fun q =>
    ⟨q.qid, q.createdAt, contentPreview q.content,
     progressLabel q.standsNumber (countFor rs q.qid)⟩

/-- Progress label as §4.5 of the spec words it, for comparison with the
implementation: sentinel stand count means queue-saturated, `c` below the
stand count means running, otherwise done. -/
def specProgressLabel (standsNumber : Int) (c : Nat) : String :=
  if standsNumber = -1 then satLabel
  else if (c : Int) < standsNumber then
    "Выполняется (" ++ toString c ++ "/" ++ toString standsNumber ++ ")"
  else doneLabel

/-! ## Submission validation and fan-out (main.py 93-126, 235-243, 353-404) -/

/-- Characters removed by Python `str.strip()` with no argument. -/
def pyWs (c : Char) : Bool :=
  c == ' ' || c == '\t' || c == '\n' || c == '\r' || c == Char.ofNat 11 || c == Char.ofNat 12

/-- Python `str.strip()`: drop leading and trailing whitespace. -/
def stripL (cs : List Char) : List Char :=
  ((cs.dropWhile pyWs).reverse.dropWhile pyWs).reverse

/-- Python `str.casefold()` restricted to ASCII: per-character lowering. -/
def lowerL (cs : List Char) : List Char := cs.map Char.toLower

/-- Prefix test on character lists (Python `str.startswith`). -/
def startsL (p : String) (cs : List Char) : Bool := p.toList.isPrefixOf cs

/-- The statement-class filter of `is_valid_entry` for SQL syntax
(main.py 107-119): take the first nine characters, casefold them, and
reject on the checked prefixes.  The three branches mirror the
data-mutation, schema-mutation and truncate checks. -/
def sqlEntryBad (entry : List Char) : Bool :=
  let slice := lowerL (entry.take 9)
  if startsL "insert " slice || startsL "update " slice || startsL "delete " slice then
    true
  else if startsL "drop " slice || startsL "alter " slice || startsL "create " slice ||
      startsL "comment " slice then
    true
  else if slice = ( "truncate ".toList) then true
  else false

/-- The spec's wording of the same filter: the text "begins with" one of the
forbidden statements, i.e. its first whitespace-delimited word,
case-insensitively, is one of the eight statement keywords. -/
def specForbiddenStart (entry : List Char) : Bool :=
  let w := (lowerL entry).takeWhile fun c => !(pyWs c)
  w = ( "insert".toList) || w = ( "update".toList) || w = ( "delete".toList) ||
    w = ( "drop".toList) || w = ( "alter".toList) || w = ( "create".toList) ||
    w = ( "comment".toList) || w = ( "truncate".toList)

/-- Characterization of `sqlEntryBad` on the whole (unsliced) text: the
casefolded text starts with a forbidden keyword followed by one space
character. -/
def forbiddenSpacePrefixed (entry : List Char) : Bool :=
  let low := lowerL entry
  startsL "insert " low || startsL "update " low || startsL "delete " low ||
    startsL "drop " low || startsL "alter " low || startsL "create " low ||
    startsL "comment " low || startsL "truncate " low

/-- A configured stand as the validation code sees it: its name, derived
syntax class (main.py 407-417, `Stand.syntax_map`), and whether its
checkbox is selected. -/
structure StandM where
  name : String
  syn : SynKind
  selected : Bool
deriving DecidableEq, Repr

/-- `SyntaxHighlighter.is_valid_entry` (main.py 93-126) for an
already-selected stand list.  `jsonOk` embeds `json.loads` success on the
filter text (document syntax).  The code looks stand names up in the global
registry; here the selected stand records are passed directly. -/
def is_valid_entry (userEntry : List Char) (selected : List StandM)
    (chosen : SynKind) (jsonOk : List Char → Bool) : Bool :=
  if userEntry.length = 0 then false
  else
    let selSyn := (selected.map StandM.syn).dedup
    if selSyn.length > 1 then false
    else if !(decide (chosen ∈ selSyn)) then false
    else
      match chosen with
      | .sql => !(sqlEntryBad userEntry)
      | .mongo => jsonOk userEntry

/-- `Wgui.get_fetch_size` (main.py 353-363): the record-limit entry box,
modelled as `none` when its text is empty or not an integer; non-positive
values and `none` yield the -1 error marker. -/
def getFetchSize (entryVal : Option Int) : Int :=
  match entryVal with
  | none => -1
  | some n => if n < 1 then -1 else n

/-- One queued work item (main.py 423-427). -/
structure QueryTask where
  stand_name : String
  query_id : Nat
  query : List Char
  size : Int
deriving DecidableEq, Repr

inductive SubmitOut where
  | validationFailed
  | admissionFailed
  | accepted
deriving DecidableEq, Repr

/-- The fan-out loop of `Wgui.create_tasks` (main.py 389-404): enqueue one
task per selected stand while `q.qsize() < MAX_QUEUE_SIZE`; at capacity,
mark the query incomplete, inform the user, and break.  Returns the new
store, the new queue, and whether the capacity cutoff was hit. -/
def enqueueLoop (st : StoreState) (q : List QueryTask) (maxSize : Nat)
    (names : List String) (queryId : Nat) (text : List Char) (size : Int) :
    StoreState × List QueryTask × Bool :=
  match names with
  | [] => (st, q, false)
  | n :: rest =>
    if q.length < maxSize then
      enqueueLoop st (q ++ [⟨n, queryId, text, size⟩]) maxSize rest queryId text size
    else
      (mark_incomplete st queryId, q, true)

/-- The submission inputs `Wgui.create_tasks` reads from the UI: the
record-limit box, the configured stands with their selection flags, the
chosen syntax radio button, and the raw query text (tk hands it over with a
trailing newline; the code strips it). -/
structure SubmitIn where
  fetchEntry : Option Int
  standsList : List StandM
  chosen : SynKind
  rawEntry : List Char
  now : String

/-- `Wgui.create_tasks` (main.py 371-404) together with
`Wgui.get_user_entry` (365-369): validate, persist the query row, then fan
out.  Early returns leave store and queue untouched. -/
def create_tasks (inp : SubmitIn) (jsonOk : List Char → Bool) (st : StoreState)
    (q : List QueryTask) (maxSize : Nat) : StoreState × List QueryTask × SubmitOut :=
  let ufs := getFetchSize inp.fetchEntry
  if ufs < 1 then (st, q, .validationFailed)
  else
    let selected := inp.standsList.filter StandM.selected
    if selected.isEmpty then (st, q, .validationFailed)
    else
      let userQuery := stripL inp.rawEntry
      if !(is_valid_entry userQuery selected inp.chosen jsonOk) then
        (st, q, .validationFailed)
      else
        let idSt := save_query st inp.chosen userQuery selected.length inp.now
        match enqueueLoop idSt.2 q maxSize (selected.map StandM.name) idSt.1 userQuery ufs with
        | (st1, q1, true) => (st1, q1, .admissionFailed)
        | (st1, q1, false) => (st1, q1, .accepted)

/-- `execute_query` (main.py 430-447): run one dequeued task.  The abstract
outcomes of the stand adapter's `connect()` and `fetchmany(query, size)`
calls are passed in (`.error e` = the call raised `DBError e`); the worker
then opens its own storage handle and writes one result row. -/
def execute_query (connectRes : Except String Unit)
    (fetchRes : Except String (List Rec)) (t : QueryTask) (st : StoreState) :
    StoreState :=
  let out : Nat × List Rec :=
    match connectRes with
    | .error e => (1, [errRecord e])
    | .ok _ =>
      match fetchRes with
      | .ok rows => (0, rows)
      | .error e => (1, [errRecord e])
  save_result st t.query_id out.1 t.stand_name out.2

/-- The access `r[1][0]` followed by `next(iter(r[1][0].values()))` inside
the `make_pivot` comprehension: the first field value of a stand's first
record.  `none` means the Python expression raises — `IndexError` on a
zero-row stand, `StopIteration` on an empty first record — not a value. -/
def firstVal (recs : List Rec) : Option JVal :=
  recs.head?.bind fun rec0 => rec0.head?.map Prod.snd

/-- The guard of `Wgui.make_pivot` (main.py 247):
`results and results[0] and len(results[0][1]) == 1 and len(results[0][1][0]) == 1`.
Only the first stand's entry is inspected (`results[0]` is a tuple, hence
always truthy when present), and it cannot itself raise: the second length
check runs only after the first guarantees index 0 exists. -/
def firstSingleScalar (results : List (String × List Rec)) : Bool :=
  match results with
  | [] => false
  | (_, recs0) :: _ =>
    match recs0 with
    | [rec0] => rec0.length == 1
    | _ => false

/-- The comprehension `[(r[0], next(iter(r[1][0].values()))) for r in results]`,
evaluated left to right; `none` models the first raising element aborting
the whole comprehension with an exception. -/
def pivotVals : List (String × List Rec) → Option (List (String × JVal))
  | [] => some []
  | r :: rest =>
    match firstVal r.2 with
    | some v => (pivotVals rest).map fun tl => (r.1, v) :: tl
    | none => none

/-- Outcome of `Wgui.make_pivot` (main.py 245-250): `noPivot` models the
`return None` branch (export falls back to plain per-stand tables),
`pivot rows` a returned pivot list, and `raised` an uncaught
`IndexError`/`StopIteration` escaping the comprehension — it propagates out
of `make_pivot` and `export_result`, so no sheet is written at all. -/
inductive PivotOut where
  | noPivot
  | pivot (rows : List (String × JVal))
  | raised
deriving DecidableEq, Repr

def PivotOut.isPivot : PivotOut → Bool
  | .pivot _ => true
  | _ => false

/-- `Wgui.make_pivot` (main.py 245-250). -/
def make_pivot (results : List (String × List Rec)) : PivotOut :=
  if firstSingleScalar results then
    match pivotVals results with
    | some rows => .pivot rows
    | none => .raised
  else .noPivot

/-- The spec's wording of the pivot guard: every stand's result set is
exactly one record with exactly one field. -/
def allSingleScalar (results : List (String × List Rec)) : Bool :=
  results.all fun r =>
    match r.2 with
    | [rec0] => rec0.length == 1
    | _ => false

/-! ## Concrete instances used by witnesses and counterexamples -/

/-- A document-filter check that accepts everything (stands in for
`json.loads` succeeding). -/
def jTrue : List Char → Bool := fun _ => true

def sel1 : List Char := "SELECT 1".toList

def standA : StandM := ⟨ "A", SynKind.sql, true⟩

/-- Relational text that begins with a DELETE statement but whose keyword is
followed by a newline rather than a space. -/
def cexEntry : List Char := "delete\nfrom t".toList

def delEntry : List Char := "DELETE FROM t".toList

/-- First stand has the single-scalar shape, second stand has two records. -/
def pivotCex : List (String × List Rec) :=
  [( "A", [[( "x", JVal.n 1)]]), ( "B", [[( "y", JVal.n 2)], [( "z", JVal.n 3)]])]

/-- Both stands have the single-scalar shape. -/
def pivotOkEx : List (String × List Rec) :=
  [( "A", [[( "x", JVal.n 1)]]), ( "B", [[( "y", JVal.n 2)]])]

/-- First stand single-scalar, second stand returned zero rows (a normal,
successful fetch outcome). -/
def pivotRaise : List (String × List Rec) :=
  [( "A", [[( "x", JVal.n 1)]]), ( "B", [])]

/-- An unrelated task already sitting in the queue. -/
def taskU : QueryTask := ⟨ "U", 0, [], 1⟩

def standsC2 : List StandM :=
  [⟨ "A", SynKind.sql, true⟩, ⟨ "B", SynKind.sql, true⟩, ⟨ "C", SynKind.sql, true⟩]

/-- A valid 3-stand relational submission. -/
def inC2 : SubmitIn := ⟨some 25, standsC2, SynKind.sql, sel1, "t0"⟩

/-- An empty store whose next query id is 1. -/
def st0 : StoreState := ⟨[], [], 1⟩

/-- A submission with no stand selected. -/
def inC3 : SubmitIn := ⟨some 5, [⟨ "A", SynKind.sql, false⟩], SynKind.sql, sel1, "t1"⟩

/-- A backend whose every connect attempt fails with `msg`. -/
def wRefuse (msg : String) : PgWorld := ⟨fun _ => some msg, fun _ => .rows []⟩

def msgBoom : String := "boom"

/-- A backend that reports the connection asynchronously closed on the first
execution and succeeds afterwards. -/
def wC6 : PgWorld := ⟨fun _ => none, fun i => if i = 0 then .opErr closedMsg else .rows []⟩

/-- Fresh adapter state: no connection, zero retries. -/
def pgInit : PgSt := ⟨false, 0, 0, 0⟩

/-- Connected adapter state. -/
def pgConn0 : PgSt := ⟨true, 0, 0, 0⟩

/-- One query expecting 3 results. -/
def qsW : List UserQuery := [⟨1, 3, 0, "t2", sel1⟩]

/-- Two of its results have arrived. -/
def rsW : List SavedResult := [⟨1, 0, "A", []⟩, ⟨1, 0, "B", []⟩]



/-! ## Helper lemmas -/

theorem to_serializable_kvs_eq_map (kvs : List (String × BVal)) :
    to_serializable_kvs kvs = kvs.map fun kv => (kv.1, to_serializable kv.2) := by
  induction kvs with
  | nil => rfl
  | cons kv rest ih =>
    obtain ⟨k, v⟩ := kv
    simp [to_serializable_kvs, ih]

/-! ## Claim theorems -/

/-- C1: executing a dequeued task writes exactly one result row whatever the
adapter outcome: a `DBError` from `connect` or `fetchmany` is captured and
recorded as an error row carrying the single synthetic error record, a
success is recorded as a clean row carrying the fetched records, and the
query table is untouched. -/
theorem one_result_row_per_task (cr : Except String Unit)
    (fr : Except String (List Rec)) (t : QueryTask) (st : StoreState) :
    ∃ row : SavedResult,
      (execute_query cr fr t st).results = st.results ++ [row] ∧
      (execute_query cr fr t st).queries = st.queries ∧
      row.queryId = t.query_id ∧ row.standName = t.stand_name ∧
      (match cr, fr with
       | .error e, _ => row.isError = 1 ∧ row.payload = [errRecord e]
       | .ok _, .error e => row.isError = 1 ∧ row.payload = [errRecord e]
       | .ok _, .ok rows => row.isError = 0 ∧ row.payload = rows) := by
  cases cr with
  | error e =>
    exact ⟨⟨t.query_id, 1, t.stand_name, [errRecord e]⟩, rfl, rfl, rfl, rfl, rfl, rfl⟩
  | ok u =>
    cases fr with
    | error e =>
      exact ⟨⟨t.query_id, 1, t.stand_name, [errRecord e]⟩, rfl, rfl, rfl, rfl, rfl, rfl⟩
    | ok rows =>
      exact ⟨⟨t.query_id, 0, t.stand_name, rows⟩, rfl, rfl, rfl, rfl, rfl, rfl⟩

/-- C9: for all three adapters, `connect` on an already-connected adapter is
a no-op that opens no second underlying connection (the state, including the
count of underlying connect calls, is unchanged), and `close` is idempotent,
never errors, and leaves no underlying handle. -/
theorem connect_close_idempotent :
    (∀ (w : PgWorld) (s : PgSt), s.conn = true → pgConnect w s = (.ok (), s)) ∧
    (∀ s : PgSt, pgClose (pgClose s) = pgClose s ∧ (pgClose s).conn = false) ∧
    (∀ s : MgSt, s.client = true → mgConnect s = s) ∧
    (∀ s : MgSt, mgClose (mgClose s) = mgClose s ∧ (mgClose s).client = false) ∧
    (∀ (w : SlWorld) (s : SlSt), s.conn = true → slConnect w s = (.ok (), s)) ∧
    (∀ s : SlSt, slClose (slClose s) = slClose s ∧ (slClose s).conn = false) := by
  refine ⟨fun w s h => by simp [pgConnect, h],
          fun s => ?_,
          fun s h => by simp [mgConnect, h],
          fun s => ?_,
          fun w s h => by simp [slConnect, h],
          fun s => ?_⟩
  · by_cases h : s.conn <;> simp [pgClose, h]
  · by_cases h : s.client <;> simp [mgClose, h]
  · by_cases h : s.conn <;> simp [slClose, h]

/-- C9 witness: concrete connected states for the three adapters. -/
theorem connect_close_idempotent_witness :
    pgConnect (wRefuse msgBoom) pgConn0 = (.ok (), pgConn0) ∧
    mgConnect ⟨true, 1⟩ = ⟨true, 1⟩ ∧
    slConnect ⟨fun _ => none⟩ ⟨true, 0⟩ = (.ok (), ⟨true, 0⟩) :=
  ⟨connect_close_idempotent.1 (wRefuse msgBoom) pgConn0 rfl,
   connect_close_idempotent.2.2.1 ⟨true, 1⟩ rfl,
   connect_close_idempotent.2.2.2.2.1 ⟨fun _ => none⟩ ⟨true, 0⟩ rfl⟩

/-- C10: the document adapter maps `to_serializable` over every fetched
document; the conversion turns `ObjectId` and `datetime` into their
string/ISO forms and recurses through mapping values only — a BSON array is
returned unchanged, so identifiers and dates inside an array survive
unconverted, as the closing conjunct shows for a document with an array
field. -/
theorem mongo_normalization_shallow :
    (∀ (s : MgSt) (docs : List BVal), s.client = true →
      mgFetchmany s (.ok docs) = some (.ok (docs.map to_serializable))) ∧
    (∀ kvs, to_serializable (.doc kvs) =
      .doc (kvs.map fun kv => (kv.1, to_serializable kv.2))) ∧
    (∀ xs, to_serializable (.arr xs) = .arr xs) ∧
    (∀ v, to_serializable (.oid v) = .s v ∧ to_serializable (.dt v) = .s v) ∧
    (∀ (k1 k2 x d y : String),
      to_serializable (.doc [(k1, .arr [.oid x, .dt d]), (k2, .oid y)]) =
        .doc [(k1, .arr [.oid x, .dt d]), (k2, .s y)]) := by
  refine ⟨fun s docs h => by simp [mgFetchmany, h],
          fun kvs => by simp [to_serializable, to_serializable_kvs_eq_map],
          fun xs => rfl,
          fun v => ⟨rfl, rfl⟩,
          fun k1 k2 x d y => rfl⟩

/-- C10 witness: a present client returns the serialized documents. -/
theorem mongo_normalization_shallow_witness :
    mgFetchmany ⟨true, 1⟩ (.ok [.oid msgBoom]) = some (.ok [.s msgBoom]) :=
  mongo_normalization_shallow.1 ⟨true, 1⟩ [.oid msgBoom] rfl

/-- Invariant of the embedded `PostgresDB`: across any `fetchmany` call the
retry counter never leaves {0, 1} and the attempt-cap error is never
raised.  The counter is reset to 0 by every successful connect and only then
incremented, and a failed connect raises before the increment. -/
theorem pgFetchmany_reconnects_le (w : PgWorld) :
    ∀ (fuel : Nat) (s : PgSt) (r : Except PgErr (List Rec)) (s1 : PgSt),
      s.reconnects ≤ 1 → pgFetchmany w fuel s = some (r, s1) →
      s1.reconnects ≤ 1 ∧ r ≠ .error .capError := by
  intro fuel
  induction fuel with
  | zero =>
    intro s r s1 h hf
    simp [pgFetchmany] at hf
  | succ n ih =>
    intro s r s1 h hf
    by_cases hc : s.conn
    · cases he : w.execOut s.eIdx with
      | rows rs =>
        simp only [pgFetchmany, hc, Bool.not_true, Bool.false_eq_true, if_false, he] at hf
        obtain ⟨h1, h2⟩ := by simpa using hf
        subst h1 h2
        exact ⟨h, by simp⟩
      | opErr m =>
        simp only [pgFetchmany, hc, Bool.not_true, Bool.false_eq_true, if_false, he] at hf
        by_cases hm : m = closedMsg
        · rw [if_pos hm] at hf
          exact ih _ _ _ (by simpa using h) hf
        · rw [if_neg hm] at hf
          obtain ⟨h1, h2⟩ := by simpa using hf
          subst h1 h2
          exact ⟨h, by simp⟩
      | progErr m =>
        simp only [pgFetchmany, hc, Bool.not_true, Bool.false_eq_true, if_false, he] at hf
        obtain ⟨h1, h2⟩ := by simpa using hf
        subst h1 h2
        exact ⟨h, by simp⟩
    · have hrc : ¬ s.reconnects > 3 := by omega
      cases hco : w.connOut s.cIdx with
      | none =>
        simp only [pgFetchmany, hc, Bool.not_false, if_true, pgReconnect, hrc,
          pgConnect, if_neg hc, hco] at hf
        exact ih _ _ _ (by simp) hf
      | some m =>
        simp only [pgFetchmany, hc, Bool.not_false, if_true, pgReconnect, hrc,
          pgConnect, if_neg hc, hco] at hf
        obtain ⟨h1, h2⟩ := by simpa using hf
        subst h1 h2
        exact ⟨h, by simp⟩

/-- C5: the bounded-retry policy the spec describes does not exist in the
code.  With a backend refusing every connect, a `fetchmany` on a fresh
adapter makes exactly one connect attempt (`cIdx` ends at 1), raises the
connection error immediately, and leaves the retry counter at 0; moreover
across `fetchmany`, `connect` and `close` the counter never exceeds 1, so
the `reconnects > 3` guard (the permanent attempt-cap failure) is
unreachable from a fresh adapter. -/
theorem reconnect_policy_collapses :
    (∀ (fuel : Nat) (m : String),
      pgFetchmany (wRefuse m) (fuel + 1) pgInit =
        some (.error (.connError m), ⟨false, 0, 1, 0⟩)) ∧
    (∀ (w : PgWorld) (fuel : Nat) (s : PgSt) (r : Except PgErr (List Rec)) (s1 : PgSt),
      s.reconnects ≤ 1 → pgFetchmany w fuel s = some (r, s1) →
      s1.reconnects ≤ 1 ∧ r ≠ .error .capError) ∧
    (∀ (w : PgWorld) (s : PgSt), s.reconnects ≤ 1 →
      (pgConnect w s).2.reconnects ≤ 1 ∧ (pgConnect w s).1 ≠ .error (.capError)) ∧
    (∀ s : PgSt, (pgClose s).reconnects = s.reconnects) := by
  refine ⟨fun fuel m => ?_, fun w => pgFetchmany_reconnects_le w, fun w s h => ?_, fun s => ?_⟩
  · simp [pgFetchmany, pgReconnect, pgConnect, wRefuse, pgInit]
  · by_cases hc : s.conn
    · simpa [pgConnect, hc] using h
    · cases hco : w.connOut s.cIdx <;> simp [pgConnect, hc, hco, h]
  · by_cases hc : s.conn <;> simp [pgClose, hc]

/-- C5 witness: the failing input evaluated, then fed to the invariant. -/
theorem reconnect_policy_collapses_witness :
    pgFetchmany (wRefuse msgBoom) 1 pgInit =
      some (.error (.connError msgBoom), ⟨false, 0, 1, 0⟩) ∧
    ((⟨false, 0, 1, 0⟩ : PgSt).reconnects ≤ 1 ∧
      (Except.error (PgErr.connError msgBoom) : Except PgErr (List Rec)) ≠
        .error .capError) :=
  ⟨reconnect_policy_collapses.1 0 msgBoom,
   reconnect_policy_collapses.2.1 (wRefuse msgBoom) 1 pgInit _ _ (by decide)
     (reconnect_policy_collapses.1 0 msgBoom)⟩

/-- C6: a `fetchmany` that finds its connection asynchronously closed
re-establishes the connection (exactly one further connect call) and retries
the same call, returning its rows; any other backend-reported error —
`OperationalError` with a different message, or `ProgrammingError` — is
surfaced as a query error with no reconnect attempt (`cIdx` unchanged) and
no retry (`eIdx` bumped once). -/
theorem fetchmany_closed_retry :
    (∀ (w : PgWorld) (s : PgSt) (rs : List Rec) (fuel : Nat),
      s.conn = true → s.reconnects ≤ 3 →
      w.execOut s.eIdx = .opErr closedMsg →
      w.connOut s.cIdx = none →
      w.execOut (s.eIdx + 1) = .rows rs →
      pgFetchmany w (fuel + 3) s =
        some (.ok rs, ⟨true, 1, s.cIdx + 1, s.eIdx + 2⟩)) ∧
    (∀ (w : PgWorld) (s : PgSt) (m : String) (fuel : Nat),
      s.conn = true → m ≠ closedMsg → w.execOut s.eIdx = .opErr m →
      pgFetchmany w (fuel + 1) s =
        some (.error (.queryError m), { s with eIdx := s.eIdx + 1 })) ∧
    (∀ (w : PgWorld) (s : PgSt) (m : String) (fuel : Nat),
      s.conn = true → w.execOut s.eIdx = .progErr m →
      pgFetchmany w (fuel + 1) s =
        some (.error (.queryError m), { s with eIdx := s.eIdx + 1 })) := by
  refine ⟨fun w s rs fuel hc hrc h1 h2 h3 => ?_, fun w s m fuel hc hm h1 => ?_,
          fun w s m fuel hc h1 => ?_⟩
  · obtain ⟨conn, rc, ci, ei⟩ := s
    simp only at hc h1 h2 h3 hrc
    subst hc
    have hrc4 : ¬ rc > 3 := by omega
    simp [pgFetchmany, pgReconnect, pgConnect, h1, h2, h3, hrc4]
  · simp [pgFetchmany, hc, h1, hm]
  · simp [pgFetchmany, hc, h1]

/-- C6 witness: the closed-connection world retried once and the plain-error
world not retried. -/
theorem fetchmany_closed_retry_witness :
    pgFetchmany wC6 3 pgConn0 = some (.ok [], ⟨true, 1, 1, 2⟩) ∧
    pgFetchmany ⟨fun _ => none, fun _ => .opErr msgBoom⟩ 1 pgConn0 =
      some (.error (.queryError msgBoom), ⟨true, 0, 0, 1⟩) :=
  ⟨fetchmany_closed_retry.1 wC6 pgConn0 [] 0 rfl (by decide) rfl rfl rfl,
   fetchmany_closed_retry.2.1 ⟨fun _ => none, fun _ => .opErr msgBoom⟩ pgConn0 msgBoom 0
     rfl (by decide) rfl⟩

/-- Every element of the pivot comprehension must evaluate: `pivotVals` is
`none` exactly when some stand's first-value access raises. -/
theorem pivotVals_none_iff (results : List (String × List Rec)) :
    pivotVals results = none ↔ ∃ r ∈ results, firstVal r.2 = none := by
  induction results with
  | nil => simp [pivotVals]
  | cons r rest ih =>
    cases hv : firstVal r.2 with
    | none =>
      simp only [pivotVals, hv]
      exact ⟨fun _ => ⟨r, List.mem_cons_self r rest, hv⟩, fun _ => trivial⟩
    | some v =>
      simp only [pivotVals, hv]
      rw [Option.map_eq_none', ih]
      constructor
      · rintro ⟨r1, h1, h2⟩
        exact ⟨r1, List.mem_cons_of_mem _ h1, h2⟩
      · rintro ⟨r1, h1, h2⟩
        rcases List.mem_cons.mp h1 with rfl | h1
        · exact absurd h2 (by simp [hv])
        · exact ⟨r1, h1, h2⟩

/-- When the comprehension completes, it pairs each stand's name with the
first field value of that stand's first record, in order. -/
theorem pivotVals_some_map (results : List (String × List Rec)) :
    ∀ rows, pivotVals results = some rows →
      results.map (fun r => (r.1, firstVal r.2)) = rows.map fun p => (p.1, some p.2) := by
  induction results with
  | nil =>
    intro rows h
    simp only [pivotVals, Option.some.injEq] at h
    simp [← h]
  | cons r rest ih =>
    intro rows h
    cases hv : firstVal r.2 with
    | none => simp [pivotVals, hv] at h
    | some v =>
      simp only [pivotVals, hv] at h
      cases hrest : pivotVals rest with
      | none => rw [hrest] at h; simp at h
      | some tl =>
        rw [hrest] at h
        simp only [Option.map_some', Option.some.injEq] at h
        subst h
        simp only [List.map_cons, hv]
        rw [ih tl hrest]

/-- C7 counterexample: the pivot is produced for `pivotCex` although its
second stand has two records, so "pivot iff every stand is single-scalar"
fails. -/
theorem pivot_shape_counterexample :
    ¬ ((make_pivot pivotCex).isPivot = true ↔ allSingleScalar pivotCex = true) := by
  decide

/-- C7 amended: the pivot view is produced iff the guard holds — the result
set is non-empty and the FIRST stand's result is exactly one record with
exactly one field; only the first stand's shape is inspected — and every
stand's first-record first-value access succeeds; each produced row pairs a
stand's name with that value.  When the guard holds but some stand has zero
rows (or an empty first record), the comprehension raises an uncaught
`IndexError`/`StopIteration` and the export aborts with nothing written;
only a failed guard falls back to plain per-stand tables. -/
theorem pivot_first_stand_gate (results : List (String × List Rec)) :
    ((make_pivot results).isPivot = true ↔
      (firstSingleScalar results = true ∧ ∀ r ∈ results, firstVal r.2 ≠ none)) ∧
    (make_pivot results = .raised ↔
      (firstSingleScalar results = true ∧ ∃ r ∈ results, firstVal r.2 = none)) ∧
    (∀ rows, make_pivot results = .pivot rows →
      results.map (fun r => (r.1, firstVal r.2)) = rows.map fun p => (p.1, some p.2)) := by
  by_cases hg : firstSingleScalar results = true
  · cases hpv : pivotVals results with
    | some rows =>
      have hmk : make_pivot results = .pivot rows := by
        simp only [make_pivot, hg, if_true, hpv]
      have hall : ∀ r ∈ results, firstVal r.2 ≠ none := by
        intro r hr hnone
        have hn : pivotVals results = none :=
          (pivotVals_none_iff results).mpr ⟨r, hr, hnone⟩
        rw [hpv] at hn
        exact Option.noConfusion hn
      refine ⟨?_, ?_, ?_⟩
      · rw [hmk]
        exact ⟨fun _ => ⟨hg, hall⟩, fun _ => rfl⟩
      · rw [hmk]
        constructor
        · intro h
          exact PivotOut.noConfusion h
        · rintro ⟨_, r, hr, hnone⟩
          exact absurd hnone (hall r hr)
      · intro rows1 h
        rw [hmk] at h
        injection h with h
        subst h
        exact pivotVals_some_map results rows hpv
    | none =>
      have hmk : make_pivot results = .raised := by
        simp only [make_pivot, hg, if_true, hpv]
      refine ⟨?_, ?_, ?_⟩
      · rw [hmk]
        constructor
        · intro h
          exact absurd h (by simp [PivotOut.isPivot])
        · rintro ⟨_, hall⟩
          obtain ⟨r, hr, hnone⟩ := (pivotVals_none_iff results).mp hpv
          exact absurd hnone (hall r hr)
      · rw [hmk]
        exact ⟨fun _ => ⟨hg, (pivotVals_none_iff results).mp hpv⟩, fun _ => rfl⟩
      · intro rows1 h
        rw [hmk] at h
        exact PivotOut.noConfusion h
  · have hmk : make_pivot results = .noPivot := by
      simp only [make_pivot, if_neg hg]
    refine ⟨?_, ?_, ?_⟩
    · rw [hmk]
      exact ⟨fun h => absurd h (by simp [PivotOut.isPivot]), fun h => absurd h.1 hg⟩
    · rw [hmk]
      exact ⟨fun h => PivotOut.noConfusion h, fun h => absurd h.1 hg⟩
    · intro rows1 h
      rw [hmk] at h
      exact PivotOut.noConfusion h

/-- C7 witness: a uniformly single-scalar result set produces the pivot,
and a zero-row second stand behind a passing guard raises. -/
theorem pivot_first_stand_gate_witness :
    (make_pivot pivotOkEx).isPivot = true ∧ make_pivot pivotRaise = .raised :=
  ⟨(pivot_first_stand_gate pivotOkEx).1.mpr ⟨by decide, by decide⟩,
   (pivot_first_stand_gate pivotRaise).2.1.mpr ⟨by decide, by decide⟩⟩

theorem isPrefixOf_take (p : List Char) :
    ∀ (cs : List Char) (n : Nat), p.length ≤ n →
      p.isPrefixOf (cs.take n) = p.isPrefixOf cs := by
  induction p with
  | nil =>
    intro cs n h
    simp [List.isPrefixOf]
  | cons a as ih =>
    intro cs n h
    cases cs with
    | nil => simp
    | cons b bs =>
      cases n with
      | zero => simp at h
      | succ n1 =>
        show (a == b && as.isPrefixOf (bs.take n1)) = (a == b && as.isPrefixOf bs)
        rw [ih bs n1 (by simp at h; omega)]

theorem isPrefixOf_iff_take (p : List Char) :
    ∀ cs : List Char, p.isPrefixOf cs = true ↔ cs.take p.length = p := by
  induction p with
  | nil =>
    intro cs
    simp [List.isPrefixOf]
  | cons a as ih =>
    intro cs
    cases cs with
    | nil => simp [List.isPrefixOf]
    | cons b bs =>
      show (a == b && as.isPrefixOf bs) = true ↔ b :: bs.take as.length = a :: as
      rw [Bool.and_eq_true, beq_iff_eq, ih bs]
      constructor
      · rintro ⟨h1, h2⟩
        rw [h1, h2]
      · intro h
        injection h with h1 h2
        exact ⟨h1.symm, h2⟩

/-- The 9-character slice taken by `is_valid_entry` decides exactly the
whole-text keyword-plus-space checks: every checked literal has at most nine
characters. -/
theorem sqlEntryBad_iff (entry : List Char) :
    sqlEntryBad entry = true ↔ forbiddenSpacePrefixed entry = true := by
  have hmt : lowerL (entry.take 9) = (lowerL entry).take 9 := by
    simp [lowerL, List.map_take]
  simp only [sqlEntryBad, forbiddenSpacePrefixed, startsL, hmt]
  rw [isPrefixOf_take ( "insert ".toList) (lowerL entry) 9 (by decide),
    isPrefixOf_take ( "update ".toList) (lowerL entry) 9 (by decide),
    isPrefixOf_take ( "delete ".toList) (lowerL entry) 9 (by decide),
    isPrefixOf_take ( "drop ".toList) (lowerL entry) 9 (by decide),
    isPrefixOf_take ( "alter ".toList) (lowerL entry) 9 (by decide),
    isPrefixOf_take ( "create ".toList) (lowerL entry) 9 (by decide),
    isPrefixOf_take ( "comment ".toList) (lowerL entry) 9 (by decide)]
  have hlen : ( "truncate ".toList).length = 9 := rfl
  have htr := isPrefixOf_iff_take ( "truncate ".toList) (lowerL entry)
  rw [hlen] at htr
  simp only [← htr]
  split_ifs with h1 h2 h3 <;> simp_all

theorem dedup_all_eq (x : SynKind) :
    ∀ l : List SynKind, l ≠ [] → (∀ y ∈ l, y = x) → l.dedup = [x] := by
  intro l
  induction l with
  | nil => intro h _; exact absurd rfl h
  | cons a t ih =>
    intro _ hall
    cases t with
    | nil => simp [hall a (by simp)]
    | cons b t1 =>
      have ht : (b :: t1).dedup = [x] :=
        ih (by simp) fun y hy => hall y (List.mem_cons_of_mem a hy)
      have ha : a ∈ b :: t1 := by
        rw [hall a (by simp), hall b (by simp)]
        simp
      rw [List.dedup_cons_of_mem ha, ht]

/-- C4 counterexample: `cexEntry` ("delete", newline, "from t") begins with a
data-mutation statement in the spec's sense — its first word is the delete
keyword — yet `is_valid_entry` accepts it, because the code demands a space
character right after the keyword.  So "rejected exactly when it begins with
a forbidden statement" fails at this input. -/
theorem sql_statement_filter_counterexample :
    ¬ (is_valid_entry cexEntry [standA] .sql jTrue = false ↔
       specForbiddenStart cexEntry = true) := by
  decide

/-- C4 amended: for a relational submission over non-empty all-relational
stands, the (stripped) query text is rejected exactly when, case-insensitively,
it starts with one of the eight statement keywords followed by one space
character — a keyword followed by any other whitespace is accepted. -/
theorem sql_statement_filter (raw : List Char) (selected : List StandM)
    (jsonOk : List Char → Bool)
    (hne : stripL raw ≠ [])
    (hsel : selected ≠ [])
    (hall : ∀ s ∈ selected, s.syn = SynKind.sql) :
    (is_valid_entry (stripL raw) selected .sql jsonOk = false ↔
      forbiddenSpacePrefixed (stripL raw) = true) := by
  have hded : (selected.map StandM.syn).dedup = [SynKind.sql] := by
    apply dedup_all_eq
    · simpa using hsel
    · intro y hy
      obtain ⟨s, hs, rfl⟩ := List.mem_map.mp hy
      exact hall s hs
  have hlen0 : ¬ (stripL raw).length = 0 := by
    simpa [List.length_eq_zero] using hne
  simp only [is_valid_entry, hded, hlen0, if_false]
  rw [if_neg (by decide), if_neg (by decide)]
  rw [show (!(sqlEntryBad (stripL raw))) = false ↔ sqlEntryBad (stripL raw) = true from by
    cases h : sqlEntryBad (stripL raw) <;> simp [h]]
  exact sqlEntryBad_iff (stripL raw)

/-- C4 witness: "DELETE FROM t" is rejected and "SELECT 1" accepted. -/
theorem sql_statement_filter_witness :
    is_valid_entry (stripL delEntry) [standA] .sql jTrue = false ∧
    is_valid_entry (stripL sel1) [standA] .sql jTrue = true := by
  constructor
  · exact (sql_statement_filter delEntry [standA] jTrue (by decide) (by decide)
      (by decide)).mpr (by decide)
  · have h := sql_statement_filter sel1 [standA] jTrue (by decide) (by decide) (by decide)
    cases hv : is_valid_entry (stripL sel1) [standA] .sql jTrue
    · exact absurd (h.mp hv) (by decide)
    · rfl

/-- The SQL progress CASE computes exactly the spec's read-time derivation:
over the integers, `stands_number - c > 0` is `c < stands_number`. -/
theorem progressLabel_eq_spec (n : Int) (c : Nat) :
    progressLabel n c = specProgressLabel n c := by
  unfold progressLabel specProgressLabel
  by_cases h1 : n = -1
  · simp [h1]
  · by_cases h3 : (c : Int) < n
    · rw [if_neg h1, if_neg h1, if_pos (by omega : n - (c : Int) > 0), if_pos h3]
    · rw [if_neg h1, if_neg h1, if_neg (by omega : ¬ n - (c : Int) > 0), if_neg h3]

/-- C8: for every store state with distinct query ids (the primary key),
`latest_queries` returns at most 25 rows, strictly descending by query id,
and every returned row's progress label equals the spec's read-time
derivation from the count of that query's result rows; a query with 2 of 3
results is labelled "Выполняется (2/3)" (running 2/3). -/
theorem listing_recent (qs : List UserQuery) (rs : List SavedResult)
    (hids : (qs.map UserQuery.qid).Nodup) :
    (latest_queries qs rs).length ≤ 25 ∧
    (latest_queries qs rs).Pairwise (fun a b => b.qid < a.qid) ∧
    (∀ row ∈ latest_queries qs rs, ∃ q ∈ qs,
      row.qid = q.qid ∧
      row.progress = specProgressLabel q.standsNumber (countFor rs q.qid)) ∧
    progressLabel 3 2 = "Выполняется (2/3)" := by
  refine ⟨?_, ?_, ?_, by rfl⟩
  · have h : ((qs.insertionSort byIdDesc).take 25).length ≤ 25 := by
      simp [List.length_take]
    simp [latest_queries]
  · have hsorted : List.Pairwise byIdDesc (qs.insertionSort byIdDesc) :=
      List.sorted_insertionSort byIdDesc qs
    have hperm : List.Perm (qs.insertionSort byIdDesc) qs :=
      List.perm_insertionSort byIdDesc qs
    have hnd : ((qs.insertionSort byIdDesc).map UserQuery.qid).Nodup :=
      ((hperm.map UserQuery.qid).nodup_iff).mpr hids
    have hne : List.Pairwise (fun a b : UserQuery => a.qid ≠ b.qid)
        (qs.insertionSort byIdDesc) := List.pairwise_map.mp hnd
    have hlt : List.Pairwise (fun a b : UserQuery => b.qid < a.qid)
        (qs.insertionSort byIdDesc) :=
      (hsorted.and hne).imp fun h => lt_of_le_of_ne h.1 (Ne.symm h.2)
    have htake : List.Pairwise (fun a b : UserQuery => b.qid < a.qid)
        ((qs.insertionSort byIdDesc).take 25) :=
      List.Pairwise.sublist (List.take_sublist 25 _) hlt
    exact List.pairwise_map.mpr htake
  · intro row hrow
    simp only [latest_queries, List.mem_map] at hrow
    obtain ⟨q, hq, rfl⟩ := hrow
    have hq2 : q ∈ qs := (List.mem_insertionSort byIdDesc).mp (List.mem_of_mem_take hq)
    exact ⟨q, hq2, rfl, progressLabel_eq_spec _ _⟩

/-- C8 witness: the single stored query with two of three results. -/
theorem listing_recent_witness :
    (latest_queries qsW rsW).length ≤ 25 ∧
    (latest_queries qsW rsW).map QRow.progress = [progressLabel 3 2] := by
  exact ⟨(listing_recent qsW rsW (by decide)).1, by rfl⟩

/-- C2: when the fan-out loop finds the queue at capacity it stops — the
final queue is the old queue plus a strict prefix of this submission's
tasks, the queue had reached capacity, and the store is the old store with
the query's stand count flipped to -1; and in the concrete scenario (queue
capacity 2, one unrelated task queued, 3 selected stands) exactly one task
of the new submission is enqueued, the query row ends with the sentinel, and
the caller gets the admission failure. -/
theorem admission_cutoff :
    (∀ (st : StoreState) (q : List QueryTask) (maxSize : Nat) (names : List String)
        (queryId : Nat) (text : List Char) (size : Int) (st1 : StoreState)
        (q1 : List QueryTask),
      enqueueLoop st q maxSize names queryId text size = (st1, q1, true) →
      ∃ k, k < names.length ∧
        q1 = q ++ ((names.take k).map fun n => (⟨n, queryId, text, size⟩ : QueryTask)) ∧
        maxSize ≤ q1.length ∧
        st1 = mark_incomplete st queryId) ∧
    (create_tasks inC2 jTrue st0 [taskU] 2 =
      (⟨[⟨1, -1, 0, "t0", sel1⟩], [], 2⟩,
       [taskU, ⟨ "A", 1, sel1, 25⟩], .admissionFailed)) := by
  constructor
  · intro st q maxSize names
    induction names generalizing q with
    | nil =>
      intro queryId text size st1 q1 h
      simp [enqueueLoop] at h
    | cons n rest ih =>
      intro queryId text size st1 q1 h
      by_cases hlt : q.length < maxSize
      · rw [enqueueLoop, if_pos hlt] at h
        obtain ⟨k, hk, hq, hlen, hst⟩ :=
          ih (q ++ [⟨n, queryId, text, size⟩]) queryId text size st1 q1 h
        refine ⟨k + 1, by simpa using hk, ?_, hlen, hst⟩
        rw [hq]
        simp [List.take_succ_cons]
      · rw [enqueueLoop, if_neg hlt] at h
        obtain ⟨h1, h2⟩ : mark_incomplete st queryId = st1 ∧ q = q1 := by
          simpa using h
        refine ⟨0, by simp, by simp [← h2], by rw [← h2]; omega, h1.symm⟩
  · rfl

/-- C2 witness: a queue already at capacity marks the query and enqueues
nothing further. -/
theorem admission_cutoff_witness :
    ∃ k, k < ([ "A", "B"] : List String).length ∧
      ([taskU] : List QueryTask) =
        [taskU] ++ (([ "A", "B"].take k).map fun n => (⟨n, 7, [], 5⟩ : QueryTask)) ∧
      1 ≤ ([taskU] : List QueryTask).length ∧
      mark_incomplete st0 7 = mark_incomplete st0 7 :=
  admission_cutoff.1 st0 [taskU] 1 [ "A", "B"] 7 [] 5 (mark_incomplete st0 7) [taskU] rfl

/-- C3: a submission failing any of the spec's validation conditions —
empty selection, mixed syntax classes, chosen syntax not the stands' class,
forbidden relational statement class, failed document-filter parse, or
non-positive fetch limit — is rejected synchronously with the store and the
queue untouched: no query row, no result row, no task. -/
theorem validation_no_persist (inp : SubmitIn) (jsonOk : List Char → Bool)
    (st : StoreState) (q : List QueryTask) (maxSize : Nat)
    (h : (inp.standsList.filter StandM.selected) = [] ∨
         ((inp.standsList.filter StandM.selected).map StandM.syn).dedup.length > 1 ∨
         ¬ inp.chosen ∈ ((inp.standsList.filter StandM.selected).map StandM.syn).dedup ∨
         (inp.chosen = .sql ∧ sqlEntryBad (stripL inp.rawEntry) = true) ∨
         (inp.chosen = .mongo ∧ jsonOk (stripL inp.rawEntry) = false) ∨
         getFetchSize inp.fetchEntry < 1) :
    create_tasks inp jsonOk st q maxSize = (st, q, .validationFailed) := by
  by_cases hf : getFetchSize inp.fetchEntry < 1
  · simp [create_tasks, hf]
  · by_cases hsel : (inp.standsList.filter StandM.selected).isEmpty
    · simp [create_tasks, hf, hsel]
    · have hvalid : is_valid_entry (stripL inp.rawEntry)
          (inp.standsList.filter StandM.selected) inp.chosen jsonOk = false := by
        by_cases hl : (stripL inp.rawEntry).length = 0
        · simp [is_valid_entry, hl]
        · rcases h with h | h | h | ⟨hc, hb⟩ | ⟨hc, hb⟩ | h
          · exact absurd h (by simpa [List.isEmpty_iff] using hsel)
          · simp [is_valid_entry, hl, h]
          · by_cases h2 :
                ((inp.standsList.filter StandM.selected).map StandM.syn).dedup.length > 1
            · simp [is_valid_entry, hl, h2]
            · simp [is_valid_entry, hl, h2, h]
          · by_cases h2 :
                ((inp.standsList.filter StandM.selected).map StandM.syn).dedup.length > 1
            · simp [is_valid_entry, hl, h2]
            · by_cases h3 :
                  inp.chosen ∈ ((inp.standsList.filter StandM.selected).map StandM.syn).dedup
              · simp [is_valid_entry, hl, h2, h3, hc, hb]
              · simp [is_valid_entry, hl, h2, h3]
          · by_cases h2 :
                ((inp.standsList.filter StandM.selected).map StandM.syn).dedup.length > 1
            · simp [is_valid_entry, hl, h2]
            · by_cases h3 :
                  inp.chosen ∈ ((inp.standsList.filter StandM.selected).map StandM.syn).dedup
              · simp [is_valid_entry, hl, h2, h3, hc, hb]
              · simp [is_valid_entry, hl, h2, h3]
          · exact absurd h hf
      simp [create_tasks, hf, hsel, hvalid]

/-- C3 witness: the empty-selection submission leaves the store and queue
unchanged. -/
theorem validation_no_persist_witness :
    create_tasks inC3 jTrue st0 [] 4 = (st0, [], .validationFailed) :=
  validation_no_persist inC3 jTrue st0 [] 4 (Or.inl (by decide))
